import Mathlib

/-!
Verification of the podcast-manager download orchestration core.

This file gives a shallow embedding of the download engine
(`core/download_engine.py`), the transfer executor
(`services/download_service.py`), the retention sweep
(`tasks/jobs.py`, `cleanup_old_episodes_job`) and path validation
(`utils/validators.py`), and proves or refutes the spec's claims
about them.
-/

namespace PodcastManager

/-- The five status tokens of a `Download` record
(`db/models.py`, `Download.status`). -/
inductive DStatus
  | pending
  | downloading
  | completed
  | failed
  | deleted
  deriving DecidableEq, Repr

/-- The mutable fields of a `Download` record that the orchestrator and
executor operations read and write.  `progress` is modelled as a rational
(the Python code stores a float, but every comparison and clamp the claims
talk about is exact).  Timestamps are omitted: no claim mentions them. -/
structure DState where
  status : DStatus
  progress : ℚ
  retryCount : ℕ
  errorMessage : Option String
  fileSize : Option ℕ
  deriving DecidableEq, Repr

/-- A freshly created `Download` record, as built by
`queue_episode_download` (`download_engine.py` lines 134-140):
status `pending`, `progress = 0.0`, `retry_count = 0`. -/
def freshDownload : DState :=
  { status := .pending
    progress := 0
    retryCount := 0
    errorMessage := none
    fileSize := none }

/-- The record-mutating operations of the orchestrator and executor:
  * `enqueueExisting` — the branch of `queue_episode_download` taken when a
    record already exists (lines 95-109);
  * `statusUpdate` — `DownloadService._update_status`;
  * `progressUpdate` — `DownloadService._update_progress`;
  * `markComplete` — `DownloadService._mark_complete`;
  * `markFailed` — `DownloadService._mark_failed`;
  * `retryReset` — the per-record reset of `retry_failed_downloads`
    (`download_engine.py` lines 258-262), guarded by the query's
    `status == failed` and `retry_count < max_retries` filters;
  * `cancelOp` — `cancel_download` (lines 289-294). -/
inductive DOp
  | enqueueExisting
  | statusUpdate (s : DStatus)
  | progressUpdate (p : ℚ)
  | markComplete (sz : ℕ)
  | markFailed (msg : String)
  | retryReset (maxRetries : ℕ)
  | cancelOp
  deriving Repr

/-- One operation applied to a record, translated line by line from the
source.  Notably `_update_progress` clamps with `min(1.0, max(0.0, p))`
and touches nothing else; `_mark_failed` increments `retry_count` and does
not touch `progress`; the `enqueue` reset sets `status`/`progress` only
and leaves `retry_count` as it is. -/
def applyOp (d : DState) (op : DOp) : DState :=
  match op with
  | .enqueueExisting =>
      match d.status with
      | .completed => d
      | .pending => d
      | .downloading => d
      | _ => { d with status := .pending, progress := 0 }
  | .statusUpdate s => { d with status := s }
  | .progressUpdate p => { d with progress := min 1 (max 0 p) }
  | .markComplete sz =>
      { d with status := .completed, progress := 1, fileSize := some sz,
               errorMessage := none }
  | .markFailed msg =>
      { d with status := .failed, errorMessage := some msg,
               retryCount := d.retryCount + 1 }
  | .retryReset maxRetries =>
      if d.status = .failed ∧ d.retryCount < maxRetries then
        { d with status := .pending, progress := 0, errorMessage := none }
      else d
  | .cancelOp =>
      if d.status = .completed then d
      else { d with status := .deleted }

/-- Run a sequence of operations from a starting record. -/
def runOps (d : DState) (ops : List DOp) : DState :=
  ops.foldl applyOp d

/-- Recognizer for the failed-attempt operation, used to count failures. -/
def isMarkFailed : DOp → Bool
  | .markFailed _ => true
  | _ => false

/-! ## Admission: `queue_episode_download` (`core/download_engine.py` 61-146) -/

/-- The piece of an `Episode` row that admission reads: the nullable
declared byte size (`episodes.file_size`). -/
structure EpisodeRec where
  fileSize : Option ℕ
  deriving DecidableEq, Repr

/-- The admission-time errors of `queue_episode_download`
(`core/exceptions.py`): `EpisodeNotFoundException` and
`InsufficientStorageException`, the latter carrying both byte counts. -/
inductive EnqueueError
  | episodeNotFound
  | insufficientStorage (requiredBytes availableBytes : ℕ)
  deriving DecidableEq, Repr

/-- `int(1.0 * 1024 * 1024 * 1024)` — the fixed 1 GiB safety buffer
(`download_engine.py` line 119). -/
def bufferBytes : ℕ := 1024 * 1024 * 1024

/-- `queue_episode_download` as a function of what the queries return:
the episode row (or `none`), the unique existing `Download` for that
episode (or `none`), and `get_available_space()`.  On success it returns
the resulting record together with a flag telling whether a new record
was added to the store (`session.add`); the existing-record branches
return the same record, so no second record is ever created for an item.
The disk-space check runs under Python truthiness, `if episode.file_size:`
(line 117), so it is skipped both when the declared size is null and when
it is `0`. -/
def queue_episode_download (episode : Option EpisodeRec)
    (existing : Option DState) (availableSpace : ℕ) :
    Except EnqueueError (DState × Bool) :=
  match episode with
  | none => .error .episodeNotFound
  | some ep =>
    match existing with
    | some d =>
      if d.status = .completed then .ok (d, false)
      else if d.status = .pending ∨ d.status = .downloading then .ok (d, false)
      else .ok ({ d with status := .pending, progress := 0 }, false)
    | none =>
      match ep.fileSize with
      | some sz =>
        if sz ≠ 0 then
          let requiredWithBuffer := sz + bufferBytes
          if availableSpace < requiredWithBuffer then
            .error (.insufficientStorage requiredWithBuffer availableSpace)
          else .ok (freshDownload, true)
        else .ok (freshDownload, true)
      | none => .ok (freshDownload, true)

/-! ## Cancellation: `cancel_download` (`core/download_engine.py` 271-298) -/

/-- `cancel_download` as a function of the fetched record: returns the
record after the call together with the boolean result.  A missing id
gives `false`; a `completed` record is protected and gives `false`
unchanged; every other record is set to `deleted` with result `true`. -/
def cancel_download (d : Option DState) : Option DState × Bool :=
  match d with
  | none => (none, false)
  | some dl =>
    if dl.status = .completed then (some dl, false)
    else (some { dl with status := .deleted }, true)

/-! ## Transfer executor: `DownloadService.download_episode`
(`services/download_service.py` 43-215) -/

/-- The request-side decisions taken from the size of any partial file at
the destination (`download_service.py` lines 67-71, 100-102, 155-156):
the byte-range start sent in the `Range` header (absent when starting
fresh), whether the destination is opened in append mode (`"ab"` vs
`"wb"`), and the starting value of the running byte count. -/
structure TransferPlan where
  rangeStart : Option ℕ
  appendMode : Bool
  initialBytes : ℕ
  deriving DecidableEq, Repr

/-- `resume_position = file_path.stat().st_size if file_path.exists()`
followed by the `Range` header, the open mode and the
`downloaded_bytes = resume_position` initialisation. -/
def planTransfer (resumePosition : ℕ) : TransferPlan :=
  { rangeStart := if resumePosition > 0 then some resumePosition else none
    appendMode := resumePosition > 0
    initialBytes := resumePosition }

/-- Lines 138-141: the expected total size is the reported content-length,
plus the resume offset when the server answered `206 Partial Content`. -/
def expectedTotalSize (statusCode contentLength resumePosition : ℕ) : ℕ :=
  if statusCode = 206 then contentLength + resumePosition else contentLength

/-- Size of the destination file once the streamed chunks are written:
the partial bytes survive in append mode and are overwritten in write
mode (line 156 picks the mode from `resume_position`). -/
def finalFileSize (appendMode : Bool) (resumePosition streamedBytes : ℕ) : ℕ :=
  if appendMode then resumePosition + streamedBytes else streamedBytes

/-- The error string of lines 186-188,
`f"Size mismatch: expected {total_size}, got {actual_size}"`. -/
def sizeMismatchMsg (totalSize actualSize : ℕ) : String :=
  "Size mismatch: expected " ++ toString totalSize ++ ", got "
    ++ toString actualSize

/-- Lines 183-203: verify the written file against the expected total and
mark the record.  The Python guard is
`abs(actual_size - total_size) > total_size * 0.01`, rendered exactly as
`100 * |actual - total| > total`; when it trips, `_mark_failed` records
the mismatch message and bumps `retry_count`, otherwise `_mark_complete`
runs.  The boolean is `download_episode`'s return value. -/
def finalizeTransfer (d : DState) (totalSize actualSize : ℕ) :
    DState × Bool :=
  if totalSize > 0 ∧ actualSize ≠ totalSize then
    if 100 * (Nat.dist actualSize totalSize) > totalSize then
      (applyOp d (.markFailed (sizeMismatchMsg totalSize actualSize)), false)
    else
      (applyOp d (.markComplete actualSize), true)
  else
    (applyOp d (.markComplete actualSize), true)

/-- The state-relevant flow of `download_episode` (lines 67-215) as a
function of the environment's responses: the size of any partial file at
the destination, the HTTP status code, the reported content-length and
the sizes of the streamed chunks.  `416` finalizes immediately (the file
is already complete); a status other than `200`/`206` marks the record
failed with the HTTP error string; otherwise the record moves to
`downloading`, the chunks are streamed, the final progress flush brings
`progress` to `downloaded_bytes / total_size` (clamped) whenever the
total is known and at least one byte was counted, and the written file is
verified against the expected total.  The intermediate throttled progress
writes are each overwritten by the next, so only the last write is
mirrored here. -/
def download_episode_model (d : DState) (partialSize : ℕ) (statusCode : ℕ)
    (contentLength : ℕ) (chunks : List ℕ) : DState × Bool :=
  let resumePosition := partialSize
  if statusCode = 416 then
    (applyOp d (.markComplete (finalFileSize (resumePosition > 0)
        resumePosition chunks.sum)), true)
  else if statusCode ≠ 200 ∧ statusCode ≠ 206 then
    (applyOp d (.markFailed ("HTTP " ++ toString statusCode)), false)
  else
    let totalSize := expectedTotalSize statusCode contentLength resumePosition
    let d1 := applyOp d (.statusUpdate .downloading)
    let downloadedBytes := resumePosition + chunks.sum
    let d2 :=
      if totalSize > 0 ∧ downloadedBytes > 0 then
        applyOp d1 (.progressUpdate ((downloadedBytes : ℚ) / (totalSize : ℚ)))
      else d1
    let actualSize := finalFileSize (resumePosition > 0) resumePosition
        chunks.sum
    finalizeTransfer d2 totalSize actualSize

/-! ## Path validation: `validate_download_path`
(`utils/validators.py` 121-145, re-exported by
`FileManager.validate_path`) -/

/-- An absolute path, as its list of components from the filesystem root. -/
abbrev AbsPath := List String

/-- One step of lexical resolution, as `Path.resolve` normalizes the
joined path: `.` and empty components vanish, `..` drops the last
component (at the root it stays at the root, which is `dropLast` on
`[]`), and a plain name is appended. -/
def resolveStep (acc : AbsPath) (component : String) : AbsPath :=
  if component = "." ∨ component = "" then acc
  else if component = ".." then acc.dropLast
  else acc ++ [component]

/-- `(base_path / relative_path).resolve()` (line 136): the relative
path's components folded onto the base. -/
def resolvePath (base : AbsPath) (rel : List String) : AbsPath :=
  rel.foldl resolveStep base

/-- `full_path.parents` of `pathlib`: every proper ancestor of the path,
i.e. every proper component-list prefix. -/
def pathParents (p : AbsPath) : List AbsPath :=
  (List.range p.length).map (fun i => p.take i)

/-- `validate_download_path` (lines 134-145): resolve the joined path and
accept it exactly when
`base_path.resolve() in full_path.parents or full_path == base_path.resolve()`. -/
def validate_download_path (base : AbsPath) (rel : List String) :
    Option AbsPath :=
  let fullPath := resolvePath base rel
  if base ∈ pathParents fullPath ∨ fullPath = base then some fullPath
  else none

/-- Written from the spec's words, for comparison with the code: a path
lies *strictly inside* the root when the root is a proper ancestor of it
— an ancestor other than the path itself. -/
def strictlyInside (base p : AbsPath) : Prop :=
  base.isPrefixOf p = true ∧ p ≠ base

instance (base p : AbsPath) : Decidable (strictlyInside base p) := by
  unfold strictlyInside; infer_instance

/-! ## Retention sweep: `cleanup_old_episodes_job`
(`tasks/jobs.py` 248-312) -/

/-- What the sweep reads off one completed download of a podcast (the
rows arrive ordered by episode publish date descending): whether
`download.file_path` is set (truthy), and the consumption oracle's answer
`plex_service.is_episode_played(path)` for its file.  `name` stands for
the record's identity. -/
structure CleanupItem where
  name : String
  hasFilePath : Bool
  consumed : Bool
  deriving DecidableEq, Repr

/-- The body of `for i, (download, episode) in enumerate(...)`
(lines 263-290): positions below `max_episodes_to_keep` are always kept;
an older download is marked for deletion by the oracle's verdict when the
oracle is configured and the record has a file path
(`if plex_service and download.file_path:`), and unconditionally
otherwise. -/
def shouldDelete (plexConfigured : Bool) (maxEpisodesToKeep : ℕ)
    (idx : ℕ) (it : CleanupItem) : Bool :=
  if idx < maxEpisodesToKeep then false
  else if plexConfigured && it.hasFilePath then it.consumed
  else true

/-- The enumeration loop accumulating `to_delete`, carrying the running
index `i`.  Each marked entry is returned with its position in the
newest-first order. -/
def cleanupMark (plexConfigured : Bool) (maxEpisodesToKeep : ℕ) :
    ℕ → List CleanupItem → List (ℕ × CleanupItem)
  | _, [] => []
  | i, it :: rest =>
    if shouldDelete plexConfigured maxEpisodesToKeep i it then
      (i, it) :: cleanupMark plexConfigured maxEpisodesToKeep (i + 1) rest
    else
      cleanupMark plexConfigured maxEpisodesToKeep (i + 1) rest

/-- The `to_delete` list computed by one sweep of one podcast: every
entry of `to_delete` then has its file removed (best-effort) and its
`Download` record deleted (lines 292-312). -/
def cleanup_to_delete (plexConfigured : Bool) (maxEpisodesToKeep : ℕ)
    (downloads : List CleanupItem) : List (ℕ × CleanupItem) :=
  cleanupMark plexConfigured maxEpisodesToKeep 0 downloads

/-! ## Helper lemmas -/

/-- Every operation preserves `progress ∈ [0,1]`: only the clamp of
`_update_progress`, the resets to `0` and `_mark_complete`'s `1.0` ever
write the field. -/
lemma applyOp_progress_mem (d : DState) (op : DOp)
    (h0 : 0 ≤ d.progress) (h1 : d.progress ≤ 1) :
    0 ≤ (applyOp d op).progress ∧ (applyOp d op).progress ≤ 1 := by
  obtain ⟨st, pr, rc, em, fs⟩ := d
  simp only [] at h0 h1
  cases op with
  | enqueueExisting =>
    cases st <;> simp [applyOp] <;> exact ⟨h0, h1⟩
  | statusUpdate s => exact ⟨h0, h1⟩
  | progressUpdate p =>
    refine ⟨le_min (by norm_num) (le_max_left 0 p), min_le_left 1 _⟩
  | markComplete sz => simp [applyOp]
  | markFailed msg => exact ⟨h0, h1⟩
  | retryReset maxRetries =>
    simp only [applyOp]
    split <;> simp [h0, h1]
  | cancelOp =>
    simp only [applyOp]
    split <;> exact ⟨h0, h1⟩

/-- `progress` stays in `[0,1]` across any operation sequence, from any
in-range starting record. -/
lemma runOps_progress_mem (ops : List DOp) (d : DState)
    (h0 : 0 ≤ d.progress) (h1 : d.progress ≤ 1) :
    0 ≤ (runOps d ops).progress ∧ (runOps d ops).progress ≤ 1 := by
  induction ops generalizing d with
  | nil => exact ⟨h0, h1⟩
  | cons op rest ih =>
    have h := applyOp_progress_mem d op h0 h1
    exact ih (applyOp d op) h.1 h.2

/-- `retry_count` after one operation: `_mark_failed` adds exactly one,
every other operation leaves it alone. -/
lemma applyOp_retryCount (d : DState) (op : DOp) :
    (applyOp d op).retryCount
      = d.retryCount + (if isMarkFailed op then 1 else 0) := by
  obtain ⟨st, pr, rc, em, fs⟩ := d
  cases op with
  | enqueueExisting => cases st <;> simp [applyOp, isMarkFailed]
  | statusUpdate s => simp [applyOp, isMarkFailed]
  | progressUpdate p => simp [applyOp, isMarkFailed]
  | markComplete sz => simp [applyOp, isMarkFailed]
  | markFailed msg => simp [applyOp, isMarkFailed]
  | retryReset maxRetries =>
    simp only [applyOp, isMarkFailed]
    split <;> simp
  | cancelOp =>
    simp only [applyOp, isMarkFailed]
    split <;> simp

/-! ## Claims -/

/-- C1 (amended).  Along any sequence of orchestrator/executor operations
from a fresh record, `progress` stays in `[0,1]`, and `_mark_complete` —
the one operation that establishes `status = completed` — always sets
`progress` to exactly `1.0`.  The converse direction of the claim's
biconditional is false (see `progress_one_while_failed`): `progress` can
be `1.0` while the status is `downloading` (after the final progress
flush) or `failed` (after a size-mismatch failure), so `progress = 1.0`
does not imply `status = completed`. -/
theorem progress_unit_interval_and_complete_sets_one :
    (∀ ops : List DOp,
        0 ≤ (runOps freshDownload ops).progress
        ∧ (runOps freshDownload ops).progress ≤ 1)
    ∧ (∀ (d : DState) (sz : ℕ),
        (applyOp d (.markComplete sz)).status = .completed
        ∧ (applyOp d (.markComplete sz)).progress = 1) := by
  constructor
  · intro ops
    exact runOps_progress_mem ops freshDownload le_rfl (by norm_num [freshDownload])
  · intro d sz
    exact ⟨rfl, rfl⟩

/-- C1 counterexample.  The exact write sequence the executor performs on
the 5%-oversize scenario (status update to `downloading`, final progress
flush of `1,050,000 / 1,000,000` clamped to `1.0`, then `_mark_failed`)
leaves a record with `progress = 1.0` and `status = failed`, refuting
`progress == 1.0 ↔ status == completed`. -/
theorem progress_one_while_failed :
    (runOps freshDownload
        [DOp.statusUpdate .downloading,
         DOp.progressUpdate ((1050000 : ℚ) / 1000000),
         DOp.markFailed (sizeMismatchMsg 1000000 1050000)]).progress = 1
    ∧ (runOps freshDownload
        [DOp.statusUpdate .downloading,
         DOp.progressUpdate ((1050000 : ℚ) / 1000000),
         DOp.markFailed (sizeMismatchMsg 1000000 1050000)]).status
        = .failed := by
  constructor
  · norm_num [runOps, applyOp]
  · rfl

/-- C7.  After any operation sequence, `retry_count` equals its initial
value plus the number of `_mark_failed` operations in the sequence: it
increments by exactly one per failed attempt, never decreases, equals `N`
after `N` consecutive failures from a fresh record (`retryCount = 0`),
and is never reset by any operation — in particular the `enqueue`
re-admission of a `failed`/`deleted` record keeps it. -/
theorem retry_count_monotone_exact (d : DState) (ops : List DOp) :
    (runOps d ops).retryCount = d.retryCount + ops.countP isMarkFailed := by
  induction ops generalizing d with
  | nil => simp [runOps]
  | cons op rest ih =>
    have hstep := applyOp_retryCount d op
    have htail := ih (applyOp d op)
    simp only [runOps, List.foldl_cons] at htail ⊢
    rw [htail, hstep, List.countP_cons]
    split <;> omega

/-- C2.  `queue_episode_download` is idempotent: with no episode row it
raises the not-found error; with an existing record in `completed`,
`pending` or `downloading` it returns that record unchanged and adds no
new one; with an existing record in `failed` or `deleted` it resets that
same record to `pending` with `progress = 0` and returns it, again adding
no new record. -/
theorem enqueue_idempotent :
    (∀ (existing : Option DState) (avail : ℕ),
        queue_episode_download none existing avail = .error .episodeNotFound)
    ∧ (∀ (ep : EpisodeRec) (d : DState) (avail : ℕ),
        d.status = .completed ∨ d.status = .pending ∨ d.status = .downloading →
        queue_episode_download (some ep) (some d) avail = .ok (d, false))
    ∧ (∀ (ep : EpisodeRec) (d : DState) (avail : ℕ),
        d.status = .failed ∨ d.status = .deleted →
        queue_episode_download (some ep) (some d) avail
          = .ok ({ d with status := .pending, progress := 0 }, false)) := by
  refine ⟨fun existing avail => rfl, ?_, ?_⟩
  · intro ep d avail h
    rcases h with h | h | h <;> simp [queue_episode_download, h]
  · intro ep d avail h
    rcases h with h | h <;> simp [queue_episode_download, h]

/-- C2 witness: a second enqueue of an already-completed item returns the
very same record with no new one created. -/
theorem enqueue_idempotent_witness :
    queue_episode_download (some ⟨some 1000⟩)
        (some { freshDownload with status := .completed, progress := 1 }) 0
      = .ok ({ freshDownload with status := .completed, progress := 1 },
             false) :=
  enqueue_idempotent.2.1 ⟨some 1000⟩
    { freshDownload with status := .completed, progress := 1 } 0 (Or.inl rfl)

/-- C3 (amended).  For an episode with declared size `s > 0` and no
existing record, admission raises `InsufficientStorageException` carrying
`required_bytes = s + 1 GiB` and `available_bytes = a` exactly when
`a < s + 1 GiB`, creating no record, and otherwise creates the record in
`pending` state.  The amendment restricts the claim to `s > 0`: the check
runs under Python truthiness (`if episode.file_size:`), so a declared
size of `0` skips it (see `zero_declared_size_skips_check`). -/
theorem insufficient_storage_check (s a : ℕ) (hs : 0 < s) :
    (a < s + bufferBytes →
      queue_episode_download (some ⟨some s⟩) none a
        = .error (.insufficientStorage (s + bufferBytes) a))
    ∧ (s + bufferBytes ≤ a →
      queue_episode_download (some ⟨some s⟩) none a
        = .ok (freshDownload, true)) := by
  constructor
  · intro h
    simp [queue_episode_download, hs.ne', h]
  · intro h
    simp [queue_episode_download, hs.ne', Nat.not_lt.mpr h]

/-- C3 witness: the spec's scenario, declared size 5 GiB with 3 GiB
available, fails with required exactly 6 GiB versus available 3 GiB. -/
theorem insufficient_storage_witness :
    queue_episode_download (some ⟨some 5368709120⟩) none 3221225472
      = .error (.insufficientStorage 6442450944 3221225472) :=
  (insufficient_storage_check 5368709120 3221225472 (by norm_num)).1
    (by norm_num [bufferBytes])

/-- C3 counterexample.  With declared size `0` and no free space at all —
where the claim as stated demands an InsufficientStorage error, since
`0 < 0 + 1 GiB` — admission performs no check and creates the `pending`
record: `if episode.file_size:` is false for `0`. -/
theorem zero_declared_size_skips_check :
    queue_episode_download (some ⟨some 0⟩) none 0 = .ok (freshDownload, true)
    ∧ (0 : ℕ) < 0 + bufferBytes := by
  exact ⟨rfl, by norm_num [bufferBytes]⟩

/-- C10.  For an episode whose declared size is null and with no existing
record, admission never consults free space: whatever is available, it
raises nothing and creates the record in `pending` state
(`freshDownload.status = pending`). -/
theorem null_size_skips_space_check (available : ℕ) :
    queue_episode_download (some ⟨none⟩) none available
      = .ok (freshDownload, true) := rfl

/-- C4.  For a finished stream with expected total `T > 0` and written
file size `A`, the record is marked `completed` exactly when
`|A - T| ≤ 0.01 · T` (the integer guard `100 · |A - T| ≤ T` is that very
inequality, as the middle conjunct states over ℚ); otherwise it is marked
`failed` with the size-mismatch message recorded and `retry_count`
incremented by one. -/
theorem size_tolerance_verdict (d : DState) (T A : ℕ) (hT : 0 < T) :
    ((finalizeTransfer d T A).1.status = .completed
        ↔ 100 * Nat.dist A T ≤ T)
    ∧ (100 * Nat.dist A T ≤ T ↔ (Nat.dist A T : ℚ) ≤ 0.01 * T)
    ∧ (T < 100 * Nat.dist A T →
        (finalizeTransfer d T A).1.status = .failed
        ∧ (finalizeTransfer d T A).1.errorMessage
            = some (sizeMismatchMsg T A)
        ∧ (finalizeTransfer d T A).1.retryCount = d.retryCount + 1) := by
  have hq : 100 * Nat.dist A T ≤ T ↔ (Nat.dist A T : ℚ) ≤ 0.01 * T := by
    have h001 : (0.01 : ℚ) * T = T / 100 := by ring
    rw [h001, le_div_iff₀ (by norm_num : (0 : ℚ) < 100)]
    constructor
    · intro h
      have := (Nat.cast_le (α := ℚ)).mpr h
      push_cast at this
      linarith
    · intro h
      have : ((100 : ℕ) : ℚ) * (Nat.dist A T : ℚ) ≤ (T : ℚ) := by
        push_cast
        linarith
      exact_mod_cast this
  by_cases hA : A = T
  · subst hA
    refine ⟨?_, hq, ?_⟩
    · simp [finalizeTransfer, applyOp, Nat.dist_self]
    · intro h
      simp [Nat.dist_self] at h
  · by_cases hc : T < 100 * Nat.dist A T
    · refine ⟨?_, hq, fun _ => ?_⟩
      · have hst : (finalizeTransfer d T A).1.status = .failed := by
          simp [finalizeTransfer, applyOp, hT, hA, hc]
        rw [hst]
        simp only [reduceCtorEq, false_iff]
        omega
      · simp [finalizeTransfer, applyOp, hT, hA, hc]
    · refine ⟨?_, hq, fun hcontra => absurd hcontra hc⟩
      have hst : (finalizeTransfer d T A).1.status = .completed := by
        simp [finalizeTransfer, applyOp, hT, hA, hc]
      rw [hst]
      simp only [true_iff]
      omega

/-- C4 witness: the spec's scenarios — expected 1,000,000 with actual
1,005,000 (0.5% over) completes; actual 1,050,000 (5% over) fails. -/
theorem size_tolerance_witness :
    (finalizeTransfer freshDownload 1000000 1005000).1.status = .completed
    ∧ (finalizeTransfer freshDownload 1000000 1050000).1.status = .failed :=
  ⟨(size_tolerance_verdict freshDownload 1000000 1005000
        (by norm_num)).1.mpr (by norm_num [Nat.dist]),
   ((size_tolerance_verdict freshDownload 1000000 1050000
        (by norm_num)).2.2 (by norm_num [Nat.dist])).1⟩

/-- C8.  `cancel_download` moves a `pending` or `downloading` record to
`deleted` and reports `true`; among existing records it reports `false`
exactly for `completed` ones, which it leaves unchanged; a missing id
reports `false`. -/
theorem cancel_download_spec :
    (∀ d : DState, d.status = .pending ∨ d.status = .downloading →
        cancel_download (some d)
          = (some { d with status := .deleted }, true))
    ∧ (∀ d : DState, d.status = .completed →
        cancel_download (some d) = (some d, false))
    ∧ (∀ d : DState,
        (cancel_download (some d)).2 = false ↔ d.status = .completed)
    ∧ cancel_download none = (none, false) := by
  refine ⟨?_, ?_, ?_, rfl⟩
  · intro d h
    rcases h with h | h <;> simp [cancel_download, h]
  · intro d h
    simp [cancel_download, h]
  · intro d
    by_cases h : d.status = .completed <;> simp [cancel_download, h]

/-- C8 witness: cancelling a fresh `pending` record flips it to `deleted`
with result `true`. -/
theorem cancel_download_witness :
    cancel_download (some freshDownload)
      = (some { freshDownload with status := .deleted }, true) :=
  cancel_download_spec.1 freshDownload (Or.inl rfl)

/-- Membership in the enumeration loop's `to_delete` list, with the
running index made explicit. -/
lemma mem_cleanupMark (plex : Bool) (k : ℕ) (items : List CleanupItem)
    (i j : ℕ) (it : CleanupItem) :
    (j, it) ∈ cleanupMark plex k i items ↔
      ∃ m, items[m]? = some it ∧ j = i + m
        ∧ shouldDelete plex k j it = true := by
  induction items generalizing i with
  | nil => simp [cleanupMark]
  | cons x rest ih =>
    simp only [cleanupMark]
    by_cases hx : shouldDelete plex k i x = true
    · rw [if_pos hx]
      simp only [List.mem_cons, ih (i + 1), Prod.mk.injEq]
      constructor
      · rintro (⟨hj, hit⟩ | ⟨m, hm, hj, hsd⟩)
        · exact ⟨0, by simp [hit.symm], by omega, by rwa [hj, hit]⟩
        · exact ⟨m + 1, by simpa using hm, by omega, hsd⟩
      · rintro ⟨m, hm, hj, hsd⟩
        cases m with
        | zero =>
          left
          simp only [List.getElem?_cons_zero, Option.some.injEq] at hm
          exact ⟨by omega, hm.symm⟩
        | succ m =>
          right
          exact ⟨m, by simpa using hm, by omega, hsd⟩
    · rw [if_neg hx]
      rw [ih (i + 1)]
      constructor
      · rintro ⟨m, hm, hj, hsd⟩
        exact ⟨m + 1, by simpa using hm, by omega, hsd⟩
      · rintro ⟨m, hm, hj, hsd⟩
        cases m with
        | zero =>
          simp only [List.getElem?_cons_zero, Option.some.injEq] at hm
          subst hm
          have hji : j = i := by omega
          rw [hji] at hsd
          exact absurd hsd hx
        | succ m =>
          exact ⟨m, by simpa using hm, by omega, hsd⟩

/-- With the file path set, the loop's verdict for the record at position
`i` (newest first) is: keep inside the retention floor, and beyond it
delete exactly when the oracle says consumed or no oracle is configured. -/
lemma shouldDelete_char (plex : Bool) (k i : ℕ) (it : CleanupItem)
    (hpath : it.hasFilePath = true) :
    shouldDelete plex k i it = true
      ↔ k ≤ i ∧ (plex = false ∨ it.consumed = true) := by
  cases plex <;> by_cases hik : i < k <;>
    simp [shouldDelete, hpath, hik] <;> omega

/-- C5.  After one sweep of a subscription whose completed downloads all
carry a file path (every record created by admission does), the record at
position `i` in the newest-first order is in the deletion list exactly
when it lies beyond the `max_items_to_keep` floor and either the oracle
reports it consumed or no oracle is configured; the `K` newest are always
retained. -/
theorem retention_sweep_deletes (plex : Bool) (k : ℕ)
    (downloads : List CleanupItem)
    (hpaths : ∀ it ∈ downloads, it.hasFilePath = true)
    (i : ℕ) (it : CleanupItem) :
    (i, it) ∈ cleanup_to_delete plex k downloads
      ↔ downloads[i]? = some it ∧ k ≤ i
          ∧ (plex = false ∨ it.consumed = true) := by
  rw [cleanup_to_delete, mem_cleanupMark]
  constructor
  · rintro ⟨m, hm, hj, hsd⟩
    have hm' : downloads[i]? = some it := by rwa [hj, Nat.zero_add]
    have hit : it ∈ downloads := by
      have := List.getElem?_eq_some_iff.mp hm'
      obtain ⟨hlt, hget⟩ := this
      exact hget ▸ List.getElem_mem hlt
    have := (shouldDelete_char plex k i it (hpaths it hit)).mp hsd
    exact ⟨hm', this.1, this.2⟩
  · rintro ⟨hm, hk, hor⟩
    have hit : it ∈ downloads := by
      obtain ⟨hlt, hget⟩ := List.getElem?_eq_some_iff.mp hm
      exact hget ▸ List.getElem_mem hlt
    exact ⟨i, hm, by omega,
      (shouldDelete_char plex k i it (hpaths it hit)).mpr ⟨hk, hor⟩⟩

/-- C5 witness: the spec's scenario — `K = 2`, completed downloads
newest→oldest `[a, b, c, d]`, oracle configured, `c` consumed and `d`
not — deletes exactly `c`. -/
theorem retention_sweep_witness :
    (2, CleanupItem.mk "c" true true) ∈ cleanup_to_delete true 2
        [⟨"a", true, false⟩, ⟨"b", true, false⟩,
         ⟨"c", true, true⟩, ⟨"d", true, false⟩]
    ∧ cleanup_to_delete true 2
        [⟨"a", true, false⟩, ⟨"b", true, false⟩,
         ⟨"c", true, true⟩, ⟨"d", true, false⟩]
      = [(2, ⟨"c", true, true⟩)] :=
  ⟨(retention_sweep_deletes true 2
      [⟨"a", true, false⟩, ⟨"b", true, false⟩,
       ⟨"c", true, true⟩, ⟨"d", true, false⟩]
      (by decide) 2 ⟨"c", true, true⟩).mpr (by decide), by rfl⟩

/-- C6.  With a partial file of size `S > 0` at the destination, the
executor sends a byte-range request starting at `S`, opens the file in
append mode, starts its running byte count at `S`, and on a `206`
response computes the expected total as content-length plus `S`; when the
server then streams the remaining `T - S` bytes of a source of total size
`T = S + CL`, the written file has exactly size `T` and the transfer
completes recording that size. -/
theorem resume_transfer_correct (d : DState) (S CL T : ℕ)
    (chunks : List ℕ) (hS : 0 < S) (hT : T = S + CL)
    (hchunks : chunks.sum = CL) :
    (planTransfer S).rangeStart = some S
    ∧ (planTransfer S).appendMode = true
    ∧ (planTransfer S).initialBytes = S
    ∧ expectedTotalSize 206 CL S = T
    ∧ finalFileSize true S chunks.sum = T
    ∧ (download_episode_model d S 206 CL chunks).1.status = .completed
    ∧ (download_episode_model d S 206 CL chunks).1.fileSize = some T := by
  refine ⟨?_, ?_, rfl, ?_, ?_, ?_, ?_⟩
  · simp [planTransfer, hS]
  · simp [planTransfer, hS]
  · simp [expectedTotalSize, hT, Nat.add_comm]
  · simp [finalFileSize, hchunks, hT, Nat.add_comm]
  · simp [download_episode_model, expectedTotalSize, finalFileSize,
      finalizeTransfer, applyOp, hchunks, hS, Nat.add_comm]
  · simp [download_episode_model, expectedTotalSize, finalFileSize,
      finalizeTransfer, applyOp, hchunks, hS, hT, Nat.add_comm]

/-- C6 witness: a partial file of 100 bytes against a 250-byte source;
the server answers `206` with content-length 150 and streams 150 bytes;
the record completes with file size 250. -/
theorem resume_transfer_witness :
    (planTransfer 100).rangeStart = some 100
    ∧ (planTransfer 100).appendMode = true
    ∧ (planTransfer 100).initialBytes = 100
    ∧ expectedTotalSize 206 150 100 = 250
    ∧ finalFileSize true 100 (List.sum [150]) = 250
    ∧ (download_episode_model freshDownload 100 206 150 [150]).1.status
        = .completed
    ∧ (download_episode_model freshDownload 100 206 150 [150]).1.fileSize
        = some 250 :=
  resume_transfer_correct freshDownload 100 150 250 [150]
    (by norm_num) (by norm_num) (by norm_num)

/-- The acceptance test of `validate_download_path` —
`base in full.parents or full == base` — is exactly the component-prefix
test, root itself included. -/
lemma mem_pathParents_or_eq (base p : AbsPath) :
    (base ∈ pathParents p ∨ p = base) ↔ base.isPrefixOf p = true := by
  rw [List.isPrefixOf_iff_prefix]
  constructor
  · rintro (hmem | hep)
    · simp only [pathParents, List.mem_map, List.mem_range] at hmem
      obtain ⟨i, _, hi⟩ := hmem
      exact hi ▸ List.take_prefix i p
    · exact hep ▸ List.prefix_refl base
  · intro hpre
    by_cases hep : p = base
    · exact Or.inr hep
    · left
      have htake : base = p.take base.length :=
        List.prefix_iff_eq_take.mp hpre
      have hlen : base.length < p.length := by
        rcases Nat.lt_or_ge base.length p.length with h | h
        · exact h
        · exfalso
          have : base.length = p.length :=
            le_antisymm (List.IsPrefix.length_le hpre) h
          exact hep (List.IsPrefix.eq_of_length hpre this).symm
      simp only [pathParents, List.mem_map, List.mem_range]
      exact ⟨base.length, hlen, htake.symm⟩

/-- C9 (amended).  `validate_download_path` accepts a relative path —
returning the resolved absolute path — exactly when the resolution of
`base / rel` has the configured root as a component prefix, the root
itself included; every path resolving outside the root (in particular
traversal via `..` that escapes it) is rejected with `none`.  The claim's
word "strictly" fails: the root itself is accepted (see
`validate_path_accepts_root_itself`). -/
theorem validate_path_accepts_inside_or_root (base : AbsPath)
    (rel : List String) (p : AbsPath) :
    validate_download_path base rel = some p
      ↔ p = resolvePath base rel
        ∧ base.isPrefixOf (resolvePath base rel) = true := by
  unfold validate_download_path
  by_cases hc : base ∈ pathParents (resolvePath base rel)
      ∨ resolvePath base rel = base
  · rw [if_pos hc]
    have hpre := (mem_pathParents_or_eq base (resolvePath base rel)).mp hc
    simp only [Option.some.injEq]
    constructor
    · intro h
      exact ⟨h.symm, hpre⟩
    · intro h
      exact h.1.symm
  · rw [if_neg hc]
    simp only [false_iff, reduceCtorEq]
    rintro ⟨hp, hpre⟩
    exact hc ((mem_pathParents_or_eq base (resolvePath base rel)).mpr hpre)

/-- C9 counterexample.  The relative path `episodes/..` resolves to the
configured root itself; the validator accepts it although the resolved
location is not *strictly* inside the root, refuting the claim as
stated. -/
theorem validate_path_accepts_root_itself :
    validate_download_path ["data", "podcasts"] ["episodes", ".."]
      = some ["data", "podcasts"]
    ∧ ¬ strictlyInside ["data", "podcasts"]
        (resolvePath ["data", "podcasts"] ["episodes", ".."]) := by
  decide

end PodcastManager
